import Mathlib

set_option maxHeartbeats 1000000

/-!
Verification of the plan-orchestration engine of PROJECT_CODEMATE.

Shallow embedding of the core pipeline code:
  - `src/src/pipeline/execution_engine.py` (ExecutionEngine)
  - `src/src/models/function_calling.py` (validate_function_calls,
    optimize_function_sequence)
  - `src/src/pipeline/query_processor.py` (process_query validation/repair flow,
    _fix_common_issues)
  - `src/src/functions/base.py` (FunctionRegistry)

Python values (JSON-like payloads, call parameters, CallResult dicts) are
modelled by the inductive type `Value`; Python dicts are insertion-ordered
association lists with unique keys, as CPython dicts are.
-/

/-- A Python/JSON-like value: None, bool, int, str, list, dict. -/
inductive Value where
  | vnull : Value
  | vbool : Bool → Value
  | vint : Int → Value
  | vstr : String → Value
  | vlist : List Value → Value
  | vdict : List (String × Value) → Value

/-- Python truthiness of a value (`bool(v)`). -/
def truthy : Value → Bool
  | .vnull => false
  | .vbool b => b
  | .vint n => n != 0
  | .vstr s => !s.isEmpty
  | .vlist xs => !xs.isEmpty
  | .vdict fs => !fs.isEmpty

/-- Association-list lookup, modelling Python `d[k]` / `d.get(k)` on a dict. -/
def assocLookup {α : Type} : List (String × α) → String → Option α
  | [], _ => none
  | (k, v) :: rest, key => if k = key then some v else assocLookup rest key

/-- Python dict assignment `d[k] = v`: replaces in place when the key is
present, appends otherwise. -/
def dictInsert {α : Type} : List (String × α) → String → α → List (String × α)
  | [], k, v => [(k, v)]
  | (k0, v0) :: rest, k, v =>
      if k0 = k then (k, v) :: rest else (k0, v0) :: dictInsert rest k v


/-! ## Reference Resolver (`ExecutionEngine._resolve_reference`) -/

/-- Python `pre in s` restricted to prefixes: `s.startswith(pre)`. -/
def strStartsWith (s pre : String) : Bool := pre.data.isPrefixOf s.data

/-- Python substring test `needle in hay`. -/
def strContains (hay needle : String) : Bool :=
  (List.range (hay.data.length + 1)).any (fun i => needle.data.isPrefixOf (hay.data.drop i))

/-- Python `sep.join`-inverse `s.split(sep)` for a single-character separator,
as used by `reference.split('.')`. -/
def splitOnChar (sep : Char) (s : String) : List String :=
  (s.data.foldr
    (fun ch acc =>
      match acc with
      | [] => [[ch]]
      | cur :: rest => if ch = sep then [] :: cur :: rest else (ch :: cur) :: rest)
    [[]]).map String.mk

/-- Python's `<` on strings: lexicographic comparison of code points. -/
def charListLt : List Char → List Char → Bool
  | [], [] => false
  | [], _ :: _ => true
  | _ :: _, [] => false
  | a :: as, b :: bs =>
      if a.toNat < b.toNat then true
      else if b.toNat < a.toNat then false
      else charListLt as bs

/-- Python's `<` on strings, lifted from character lists. -/
def strLt (a b : String) : Bool := charListLt a.data b.data

/-- Python `max(keys)` over strings: lexicographic maximum, `none` on an empty
collection (where CPython would raise and the caller would fall through). -/
def maxKey : List String → Option String
  | [] => none
  | k :: ks => some (ks.foldl (fun a b => if strLt a b then b else a) k)

/-- `result.get('data', result)` on a CallResult dict; a non-dict has no
`.get`, the raised AttributeError is caught by `_resolve_reference` and
surfaces as None. -/
def getDataOrSelf : Value → Value
  | .vdict fields => (assocLookup fields "data").getD (.vdict fields)
  | _ => Value.vnull

/-- The dotted-path walk of the `"." in reference` branch: starting from the
execution-context dict, follow each path segment while the current object is a
dict containing it; otherwise return None. -/
def walkPath : Value → List String → Value
  | obj, [] => obj
  | .vdict fields, p :: ps =>
      match assocLookup fields p with
      | some v => walkPath v ps
      | none => Value.vnull
  | _, _ :: _ => Value.vnull

/-- The final fallback loop of `_resolve_reference`: first context entry whose
key has the reference as a substring, `data`-field preferred; None if none. -/
def fallbackScan : List (String × Value) → String → Value
  | [], _ => Value.vnull
  | (k, v) :: rest, reference =>
      if strContains k reference then getDataOrSelf v else fallbackScan rest reference

/-- `ExecutionEngine._resolve_reference(reference)` against an execution
context (insertion-ordered dict from `"result_<i>"` keys to CallResult dicts).
The branch order is the source's: the `output_from_previous` test, then the
`startswith("result_")` test, then the `"." in reference` dotted walk, and the
substring scan for whatever falls through; `return None` is `Value.vnull`. -/
def resolveReference (ctx : List (String × Value)) (reference : String) : Value :=
  if reference = "output_from_previous" then
    match maxKey (ctx.map Prod.fst) with
    | some latestKey =>
        match assocLookup ctx latestKey with
        | some latest => getDataOrSelf latest
        | none => Value.vnull
    | none => fallbackScan ctx reference
  else if strStartsWith reference "result_" then
    match assocLookup ctx reference with
    | some r => getDataOrSelf r
    | none => fallbackScan ctx reference
  else if strContains reference "." then
    walkPath (Value.vdict ctx) (splitOnChar '.' reference)
  else
    fallbackScan ctx reference

/-- A successful CallResult dict carrying only the fields the resolver claims
need: `success` and a `data` payload holding the call index. -/
def mkDataResult (n : Int) : Value :=
  .vdict [("success", .vbool true), ("data", .vint n)]

/-- Execution context after one successful call, as `execute_plan` records it. -/
def ctxOne : List (String × Value) := [("result_0", mkDataResult 42)]

/-- Execution context after eleven successful calls (indices 0 through 10), as
`execute_plan` records them in insertion order. -/
def ctxEleven : List (String × Value) :=
  [("result_0", mkDataResult 0), ("result_1", mkDataResult 1),
   ("result_2", mkDataResult 2), ("result_3", mkDataResult 3),
   ("result_4", mkDataResult 4), ("result_5", mkDataResult 5),
   ("result_6", mkDataResult 6), ("result_7", mkDataResult 7),
   ("result_8", mkDataResult 8), ("result_9", mkDataResult 9),
   ("result_10", mkDataResult 10)]


/-! ## Execution Engine (`ExecutionEngine.execute_plan` and friends)

`_execute_single_function` invokes an external async operation from the
registry (an external collaborator), so its outcome is abstracted as an oracle
`outcome : Nat → Call → CallResult` giving the CallResult dict recorded at
each call index; the engine's own logic — recording, the critical-failure
break, aggregation — is embedded from the source. -/

/-- A CallSpec dict from a plan: `call.get('function_name')`,
`call.get('parameters')` may each be absent. -/
structure Call where
  function_name : Option String
  parameters : Option (List (String × Value))
  description : String

/-- A CallResult: `_execute_single_function` always returns a dict. -/
structure CallResult where
  fields : List (String × Value)

/-- `result.get('success', False)` under Python truthiness. -/
def getSuccess (r : CallResult) : Bool :=
  truthy ((assocLookup r.fields "success").getD (.vbool false))

/-- The fixed critical-operation list of `_is_critical_function`. -/
def criticalFunctions : List String :=
  ["read_csv", "read_file", "read_json", "read_excel",
   "query_database", "fetch_web_page"]

/-- `_is_critical_function(call)`: `call.get('function_name', '')` is in the
critical list. -/
def isCriticalCall (c : Call) : Bool :=
  criticalFunctions.contains (c.function_name.getD "")

/-- The `for i, call in enumerate(function_calls)` loop of `execute_plan`,
started at absolute index `i`: record each call's result, and break after
recording when the result is falsy-`success` and the call is critical. -/
def runCalls (outcome : Nat → Call → CallResult) : Nat → List Call → List CallResult
  | _, [] => []
  | i, c :: rest =>
      let r := outcome i c
      if !(getSuccess r) && isCriticalCall c then [r]
      else r :: runCalls outcome (i + 1) rest

/-- The run-level summary (`execution_summary`); the wall-clock
`execution_time` string is omitted from the embedding. -/
structure ExecutionSummary where
  total_functions : Nat
  successful_functions : Nat
  failed_functions : Nat

/-- An ExecutionResult; the echoed `plan` field is omitted from the
embedding. -/
structure ExecutionResult where
  success : Bool
  message : String
  results : List CallResult
  execution_summary : ExecutionSummary

/-- `_create_execution_result(plan, results, message, success)`. -/
def createExecutionResult (results : List CallResult) (message : String)
    (success : Bool) : ExecutionResult :=
  { success := success
    message := message
    results := results
    execution_summary :=
      { total_functions := results.length
        successful_functions := (results.filter (fun r => getSuccess r)).length
        failed_functions := (results.filter (fun r => !(getSuccess r))).length } }

/-- `execute_plan`: the empty-plan early return, the execution loop, and the
`all(...)` aggregation. -/
def executePlan (outcome : Nat → Call → CallResult) (calls : List Call) : ExecutionResult :=
  if calls.isEmpty then
    createExecutionResult [] "No function calls to execute" false
  else
    let results := runCalls outcome 0 calls
    let success := results.all (fun r => getSuccess r)
    createExecutionResult results "Execution completed" success

/-- One synthetic CallResult of `simulate_execution`. -/
def simulateCallResult (i : Nat) (c : Call) : CallResult :=
  ⟨[("success", .vbool true),
    ("function_name", .vstr (c.function_name.getD "unknown")),
    ("call_index", .vint i),
    ("description", .vstr c.description),
    ("simulated", .vbool true),
    ("message", .vstr ("Simulated execution of " ++ c.function_name.getD "unknown"))]⟩

/-- `simulate_execution`: synthetic successes for every call, aggregated with
message "Simulation completed" and success `True`. -/
def simulateExecution (calls : List Call) : ExecutionResult :=
  createExecutionResult
    (calls.enum.map (fun p => simulateCallResult p.1 p.2))
    "Simulation completed" true

/-- A CallResult that is missing any `success` field (falsy default). -/
def emptyResult : CallResult := ⟨[]⟩

/-- An outcome oracle used at concrete inputs where the per-call results do
not matter. -/
def noOutcome : Nat → Call → CallResult := fun _ _ => emptyResult

/-- A failing CallResult. -/
def failResult : CallResult := ⟨[("success", .vbool false), ("error", .vstr "boom")]⟩

/-- A successful CallResult. -/
def okResult : CallResult := ⟨[("success", .vbool true), ("data", .vint 1)]⟩

/-- A critical call (`read_csv`). -/
def critCall : Call := ⟨some "read_csv", some [("file_path", .vstr "a.csv")], "read"⟩

/-- A non-critical call. -/
def plainCall : Call := ⟨some "summarize_data", some [], "summarize"⟩


/-! ## Plan Validator (`FunctionCallingModel.validate_function_calls`) -/

/-- One parameter definition of an exported function schema:
`{'name': ..., 'required': ...}`. -/
structure ParamDef where
  name : String
  required : Bool
deriving DecidableEq, Repr

/-- One exported function schema, as consumed by the validator
(`available_functions` entries with their `name` and `parameters`). -/
structure FuncDef where
  name : String
  parameters : List ParamDef
deriving DecidableEq, Repr

/-- The errors one call contributes inside the validator loop, at enumeration
index `i`. Membership of the name in `available_function_names` is modelled by
`find?` succeeding on `available_functions`, which is equivalent (the name set
is built from the same list) and matches the subsequent `next(...)` lookup. -/
def callErrors (avail : List FuncDef) (i : Nat) (c : Call) : List String :=
  match c.function_name with
  | none => ["Function call " ++ toString (i + 1) ++ ": Missing 'function_name'"]
  | some fname =>
    match avail.find? (fun f => f.name = fname) with
    | none => ["Function call " ++ toString (i + 1) ++ ": Unknown function '" ++ fname ++ "'"]
    | some fd =>
      match c.parameters with
      | none => ["Function call " ++ toString (i + 1) ++ ": Missing 'parameters'"]
      | some ps =>
        let required := (fd.parameters.filter (fun p => p.required)).map (fun p => p.name)
        let provided := ps.map Prod.fst
        let missing := required.filter (fun r => !(provided.contains r))
        if missing.isEmpty then []
        else ["Function call " ++ toString (i + 1) ++ ": Missing required parameters: "
                ++ String.intercalate ", " missing]

/-- The `for i, call in enumerate(function_calls)` accumulation loop. -/
def validateAux (avail : List FuncDef) : Nat → List Call → List String
  | _, [] => []
  | i, c :: rest => callErrors avail i c ++ validateAux avail (i + 1) rest

/-- `validate_function_calls(function_calls, available_functions)`:
`(len(errors) == 0, errors)`. -/
def validateFunctionCalls (calls : List Call) (avail : List FuncDef) : Bool × List String :=
  let errors := validateAux avail 0 calls
  (errors.isEmpty, errors)

/-- A call is malformed in one of the four ways the validator checks: missing
function name, unknown operation, missing parameters field, or missing a
required parameter of its schema. -/
def malformedCall (avail : List FuncDef) (c : Call) : Bool :=
  match c.function_name with
  | none => true
  | some fname =>
    match avail.find? (fun f => f.name = fname) with
    | none => true
    | some fd =>
      match c.parameters with
      | none => true
      | some ps =>
        !((((fd.parameters.filter (fun p => p.required)).map (fun p => p.name)).filter
            (fun r => !((ps.map Prod.fst).contains r))).isEmpty)

/-! ## Plan Repairer (`QueryProcessor._fix_common_issues`) -/

/-- `if key not in params: params[key] = v` (dict insertion appends). -/
def addDefaultParam (ps : List (String × Value)) (k : String) (v : Value) :
    List (String × Value) :=
  if ps.any (fun p => p.1 = k) then ps else ps ++ [(k, v)]

/-- The per-call repair of `_fix_common_issues`: materialize a missing
`parameters` dict, then inject the hardcoded defaults for `send_email`,
`read_csv` and `read_file`. -/
def fixCall (c : Call) : Call :=
  let ps := c.parameters.getD []
  let fname := c.function_name.getD ""
  let ps :=
    if fname = "send_email" then
      addDefaultParam
        (addDefaultParam
          (addDefaultParam ps "to_email" (.vstr "abhayrajputcse@gmail.com"))
          "subject" (.vstr "Automated Email"))
        "body" (.vstr "This is an automated email.")
    else if fname = "read_csv" then
      addDefaultParam ps "file_path" (.vstr "data/sample.csv")
    else if fname = "read_file" then
      addDefaultParam ps "file_path" (.vstr "data/sample.txt")
    else ps
  { c with parameters := some ps }

/-- `_fix_common_issues` over the whole call list. -/
def fixCommonIssues (calls : List Call) : List Call := calls.map fixCall

/-! ## Dedup optimizer (`FunctionCallingModel.optimize_function_sequence`)

The call signature is `(call['function_name'], json.dumps(call['parameters'],
sort_keys=True))`; the canonical JSON dump is modelled by sorting every dict
level by key (`canonValue`) and serializing (`dumpValue`), so two parameter
mappings holding the same key-value pairs produce the same signature. -/

/-- Insert one field into a key-sorted field list (code points order). -/
def insertField (p : String × Value) : List (String × Value) → List (String × Value)
  | [] => [p]
  | q :: rest => if strLt p.1 q.1 then p :: q :: rest else q :: insertField p rest

/-- Sort a dict's fields by key. -/
def sortFields : List (String × Value) → List (String × Value)
  | [] => []
  | p :: rest => insertField p (sortFields rest)

mutual

/-- Key-sort every dict nested in a value, as `sort_keys=True` does. -/
def canonValue : Value → Value
  | .vnull => .vnull
  | .vbool b => .vbool b
  | .vint n => .vint n
  | .vstr s => .vstr s
  | .vlist xs => .vlist (canonList xs)
  | .vdict fs => .vdict (sortFields (canonFields fs))

/-- `canonValue` over the elements of a list value. -/
def canonList : List Value → List Value
  | [] => []
  | v :: vs => canonValue v :: canonList vs

/-- `canonValue` over the values of a dict. -/
def canonFields : List (String × Value) → List (String × Value)
  | [] => []
  | (k, v) :: fs => (k, canonValue v) :: canonFields fs

end

mutual

/-- JSON serialization of a (canonicalized) value, modelling `json.dumps`. -/
def dumpValue : Value → String
  | .vnull => "null"
  | .vbool b => if b then "true" else "false"
  | .vint n => toString n
  | .vstr s => "\x22" ++ s ++ "\x22"
  | .vlist xs => "[" ++ dumpList xs ++ "]"
  | .vdict fs => "\x7b" ++ dumpFields fs ++ "\x7d"

/-- Comma-separated serialization of list elements. -/
def dumpList : List Value → String
  | [] => ""
  | [v] => dumpValue v
  | v :: vs => dumpValue v ++ ", " ++ dumpList vs

/-- Comma-separated serialization of dict fields. -/
def dumpFields : List (String × Value) → String
  | [] => ""
  | [(k, v)] => "\x22" ++ k ++ "\x22: " ++ dumpValue v
  | (k, v) :: fs => "\x22" ++ k ++ "\x22: " ++ dumpValue v ++ ", " ++ dumpFields fs

end

/-- The dedup signature of a call:
`(call['function_name'], json.dumps(call['parameters'], sort_keys=True))`. -/
def callSignature (c : Call) : Option String × String :=
  (c.function_name, dumpValue (canonValue (.vdict (c.parameters.getD []))))

/-- Membership in the `seen` set of signatures. -/
def sigSeen : List (Option String × String) → (Option String × String) → Bool
  | [], _ => false
  | x :: xs, s => if x = s then true else sigSeen xs s

/-- The dedup loop of `optimize_function_sequence` with its `seen` set. -/
def optimizeAux (seen : List (Option String × String)) : List Call → List Call
  | [] => []
  | c :: rest =>
      let sig := callSignature c
      if sigSeen seen sig then optimizeAux seen rest
      else c :: optimizeAux (sig :: seen) rest

/-- `optimize_function_sequence(function_calls)`: drop every call whose
signature was already seen, keeping first occurrences in order. -/
def optimizeFunctionSequence (calls : List Call) : List Call :=
  optimizeAux [] calls

/-! ## `QueryProcessor.process_query` validation/repair/optimization flow -/

/-- The plan fields `process_query` computes that matter here: the outgoing
call list, the `valid` flag, and the `errors` list. -/
structure PlanOut where
  function_calls : List Call
  valid : Bool
  errors : List String

/-- The validate → (repair when invalid) → optimize → annotate sequence of
`process_query`; note the code never re-validates after `_fix_common_issues`,
and `plan['valid']` is the pre-repair `is_valid`. -/
def processPlanCalls (avail : List FuncDef) (calls : List Call) : PlanOut :=
  let v := validateFunctionCalls calls avail
  let calls2 := if v.1 then calls else fixCommonIssues calls
  let calls3 := optimizeFunctionSequence calls2
  { function_calls := calls3
    valid := v.1
    errors := if v.1 then [] else v.2 }

/-! ## Operation Registry (`FunctionRegistry` of `functions/base.py`) -/

/-- The registry-relevant data of a function object: its `name` and
`category` properties (the callable itself is an external collaborator). -/
structure RegisteredFunction where
  name : String
  category : String
deriving DecidableEq, Repr

/-- `FunctionRegistry`: the `functions` dict and the `categories` dict. -/
structure FunctionRegistry where
  functions : List (String × RegisteredFunction)
  categories : List (String × List String)

/-- A registry with nothing registered. -/
def emptyRegistry : FunctionRegistry := ⟨[], []⟩

/-- The `categories` update of `register`: create the list if absent, then
append the function's name. -/
def addToCategory (cats : List (String × List String)) (cat fname : String) :
    List (String × List String) :=
  let cats := if cats.any (fun p => p.1 = cat) then cats else cats ++ [(cat, [])]
  cats.map (fun p => if p.1 = cat then (p.1, p.2 ++ [fname]) else p)

/-- `FunctionRegistry.register(function)`: plain dict assignment on
`functions`, then the category append. -/
def registerFn (reg : FunctionRegistry) (f : RegisteredFunction) : FunctionRegistry :=
  { functions := dictInsert reg.functions f.name f
    categories := addToCategory reg.categories f.category f.name }

/-- `FunctionRegistry.get_function(name)`. -/
def getFunction (reg : FunctionRegistry) (name : String) : Option RegisteredFunction :=
  assocLookup reg.functions name

/-! ## Concrete fixtures used by the claims -/

/-- Schema list holding only `read_csv(file_path required)`. -/
def csvAvail : List FuncDef := [⟨"read_csv", [⟨"file_path", true⟩]⟩]

/-- A `read_csv` call whose `parameters` field is missing entirely. -/
def csvCallNoParams : Call := ⟨some "read_csv", none, "read data"⟩

/-- Two function objects sharing one name. -/
def fnDupA : RegisteredFunction := ⟨"dup_op", "cat_a"⟩

/-- Second function object with the same name as `fnDupA`. -/
def fnDupB : RegisteredFunction := ⟨"dup_op", "cat_b"⟩

/-- The summary invariant of claim C5, over the embedded ExecutionResult. -/
def summaryInvariant (er : ExecutionResult) : Prop :=
  er.execution_summary.successful_functions + er.execution_summary.failed_functions
      = er.execution_summary.total_functions
  ∧ er.execution_summary.total_functions = er.results.length

/-! ## Helper lemmas -/

theorem length_filter_split {α : Type} (p : α → Bool) (l : List α) :
    (l.filter p).length + (l.filter (fun x => !(p x))).length = l.length := by
  induction l with
  | nil => rfl
  | cons a l ih =>
    by_cases h : p a = true <;> simp [List.filter, h] <;> omega

theorem createExecutionResult_invariant (results : List CallResult)
    (message : String) (success : Bool) :
    summaryInvariant (createExecutionResult results message success) :=
  ⟨length_filter_split (fun r => getSuccess r) results, rfl⟩

theorem assocLookup_dictInsert {α : Type} (d : List (String × α)) (k : String) (v : α) :
    assocLookup (dictInsert d k v) k = some v := by
  induction d with
  | nil => simp [dictInsert, assocLookup]
  | cons p rest ih =>
    by_cases h : p.1 = k
    · simp [dictInsert, h, assocLookup]
    · simpa [dictInsert, h, assocLookup] using ih

theorem runCalls_length_no_break (outcome : Nat → Call → CallResult) :
    ∀ (calls : List Call) (i : Nat),
      (∀ j cj, calls[j]? = some cj →
          isCriticalCall cj = false ∨ getSuccess (outcome (i + j) cj) = true) →
      (runCalls outcome i calls).length = calls.length := by
  intro calls
  induction calls with
  | nil => intro i _; rfl
  | cons c rest ih =>
    intro i h
    have h0 : isCriticalCall c = false ∨ getSuccess (outcome i c) = true := by
      simpa using h 0 c (by simp)
    have hcond : (!(getSuccess (outcome i c)) && isCriticalCall c) = false := by
      rcases h0 with h0 | h0 <;> simp [h0]
    have hrest : ∀ j cj, rest[j]? = some cj →
        isCriticalCall cj = false ∨ getSuccess (outcome (i + 1 + j) cj) = true := by
      intro j cj hj
      have := h (j + 1) cj (by simpa using hj)
      rwa [show i + (j + 1) = i + 1 + j by omega] at this
    simp [runCalls, hcond, ih (i + 1) hrest]

theorem runCalls_length_break (outcome : Nat → Call → CallResult) :
    ∀ (calls : List Call) (i k : Nat) (ck : Call),
      calls[k]? = some ck →
      isCriticalCall ck = true →
      getSuccess (outcome (i + k) ck) = false →
      (∀ j cj, j < k → calls[j]? = some cj →
          isCriticalCall cj = false ∨ getSuccess (outcome (i + j) cj) = true) →
      (runCalls outcome i calls).length = k + 1 := by
  intro calls
  induction calls with
  | nil => intro i k ck hk _ _ _; simp at hk
  | cons c rest ih =>
    intro i k ck hk hcrit hfail hbefore
    cases k with
    | zero =>
      have hc : some c = some ck := by simpa using hk
      have hc : c = ck := by injection hc
      subst hc
      have hfail0 : getSuccess (outcome i c) = false := by simpa using hfail
      simp [runCalls, hfail0, hcrit]
    | succ k =>
      have h0 : isCriticalCall c = false ∨ getSuccess (outcome i c) = true := by
        simpa using hbefore 0 c (Nat.succ_pos k) (by simp)
      have hcond : (!(getSuccess (outcome i c)) && isCriticalCall c) = false := by
        rcases h0 with h0 | h0 <;> simp [h0]
      have hk1 : rest[k]? = some ck := by simpa using hk
      have hfail1 : getSuccess (outcome (i + 1 + k) ck) = false := by
        rwa [show i + 1 + k = i + (k + 1) by omega]
      have hbefore1 : ∀ j cj, j < k → rest[j]? = some cj →
          isCriticalCall cj = false ∨ getSuccess (outcome (i + 1 + j) cj) = true := by
        intro j cj hj hjv
        have := hbefore (j + 1) cj (by omega) (by simpa using hjv)
        rwa [show i + (j + 1) = i + 1 + j by omega] at this
      simp [runCalls, hcond, ih (i + 1) k ck hk1 hcrit hfail1 hbefore1]

theorem executePlan_results_cons (outcome : Nat → Call → CallResult)
    (c : Call) (rest : List Call) :
    (executePlan outcome (c :: rest)).results = runCalls outcome 0 (c :: rest) := rfl

theorem callErrors_length (avail : List FuncDef) (i : Nat) (c : Call) :
    (callErrors avail i c).length = cond (malformedCall avail c) 1 0 := by
  obtain ⟨fn, ps, d⟩ := c
  cases fn with
  | none => rfl
  | some fname =>
    cases hfd : List.find? (fun f => decide (f.name = fname)) avail with
    | none => cases ps <;> simp [callErrors, malformedCall, hfd]
    | some fd =>
      cases ps with
      | none => simp [callErrors, malformedCall, hfd]
      | some ps =>
        simp only [callErrors, malformedCall, hfd]
        cases h :
            ((((fd.parameters.filter (fun p => p.required)).map (fun p => p.name)).filter
              (fun r => !((ps.map Prod.fst).contains r))).isEmpty) <;>
          rfl

theorem validateAux_length (avail : List FuncDef) :
    ∀ (calls : List Call) (i : Nat),
      (validateAux avail i calls).length
        = (calls.filter (fun c => malformedCall avail c)).length := by
  intro calls
  induction calls with
  | nil => intro i; rfl
  | cons c rest ih =>
    intro i
    cases h : malformedCall avail c <;>
      simp [validateAux, List.filter, callErrors_length, h, ih (i + 1)] <;> omega

theorem sigSeen_iff (seen : List (Option String × String)) (s : Option String × String) :
    sigSeen seen s = true ↔ s ∈ seen := by
  induction seen with
  | nil => simp [sigSeen]
  | cons x xs ih =>
    simp only [sigSeen, List.mem_cons]
    by_cases h : x = s
    · simp [h]
    · rw [if_neg h, ih]
      constructor
      · exact Or.inr
      · rintro (h2 | h2)
        · exact absurd h2.symm h
        · exact h2

theorem optimizeAux_sublist (l : List Call) :
    ∀ seen, (optimizeAux seen l).Sublist l := by
  induction l with
  | nil => intro seen; simp [optimizeAux]
  | cons c rest ih =>
    intro seen
    cases hs : sigSeen seen (callSignature c) with
    | true => simpa [optimizeAux, hs] using (ih seen).cons c
    | false => simpa [optimizeAux, hs] using (ih (callSignature c :: seen)).cons₂ c

theorem optimizeAux_not_seen (l : List Call) :
    ∀ seen c, c ∈ optimizeAux seen l → callSignature c ∉ seen := by
  induction l with
  | nil => intro seen c hc; simp [optimizeAux] at hc
  | cons a rest ih =>
    intro seen c hc
    cases hs : sigSeen seen (callSignature a) with
    | true =>
      rw [optimizeAux, hs] at hc
      exact ih seen c hc
    | false =>
      rw [optimizeAux, hs] at hc
      rcases List.mem_cons.mp hc with h | h
      · subst h
        intro hmem
        rw [← sigSeen_iff] at hmem
        simp [hs] at hmem
      · intro hmem
        exact ih (callSignature a :: seen) c h (List.mem_cons_of_mem _ hmem)

theorem optimizeAux_pairwise (l : List Call) :
    ∀ seen, (optimizeAux seen l).Pairwise
      (fun a b => callSignature a ≠ callSignature b) := by
  induction l with
  | nil => intro seen; simp [optimizeAux]
  | cons a rest ih =>
    intro seen
    cases hs : sigSeen seen (callSignature a) with
    | true => simpa [optimizeAux, hs] using ih seen
    | false =>
      rw [optimizeAux, hs]
      refine List.Pairwise.cons ?_ (ih (callSignature a :: seen))
      intro b hb
      have := optimizeAux_not_seen rest (callSignature a :: seen) b hb
      intro he
      exact this (by simp [← he])

theorem optimizeAux_represented (l : List Call) :
    ∀ seen c, c ∈ l →
      callSignature c ∈ seen
      ∨ ∃ d, d ∈ optimizeAux seen l ∧ callSignature d = callSignature c := by
  induction l with
  | nil => intro seen c hc; simp at hc
  | cons a rest ih =>
    intro seen c hc
    cases hs : sigSeen seen (callSignature a) with
    | true =>
      rcases List.mem_cons.mp hc with h | h
      · subst h
        exact Or.inl ((sigSeen_iff seen (callSignature c)).mp hs)
      · rcases ih seen c h with h2 | ⟨d, hd, he⟩
        · exact Or.inl h2
        · exact Or.inr ⟨d, by rw [optimizeAux, hs]; exact hd, he⟩
    | false =>
      rcases List.mem_cons.mp hc with h | h
      · subst h
        refine Or.inr ⟨c, ?_, rfl⟩
        rw [optimizeAux, hs]
        exact List.mem_cons_self c _
      · rcases ih (callSignature a :: seen) c h with h2 | ⟨d, hd, he⟩
        · rcases List.mem_cons.mp h2 with h3 | h3
          · refine Or.inr ⟨a, ?_, h3.symm⟩
            rw [optimizeAux, hs]
            exact List.mem_cons_self a _
          · exact Or.inl h3
        · refine Or.inr ⟨d, ?_, he⟩
          rw [optimizeAux, hs]
          exact List.mem_cons_of_mem a hd

theorem optimizeAux_keeps_first (l : List Call) :
    ∀ (seen : List (Option String × String)) (i : Nat) (ci : Call), l[i]? = some ci →
      (∀ (j : Nat) (cj : Call), j < i → l[j]? = some cj →
          callSignature cj ≠ callSignature ci) →
      callSignature ci ∉ seen →
      ci ∈ optimizeAux seen l := by
  induction l with
  | nil => intro seen i ci hi _ _; simp at hi
  | cons a rest ih =>
    intro seen i ci hi hbefore hseen
    cases i with
    | zero =>
      have ha : a = ci := by simpa using hi
      subst ha
      have hs : sigSeen seen (callSignature a) = false := by
        cases hs2 : sigSeen seen (callSignature a) with
        | false => rfl
        | true => exact absurd ((sigSeen_iff _ _).mp hs2) hseen
      rw [optimizeAux, hs]
      exact List.mem_cons_self a _
    | succ i =>
      have hi1 : rest[i]? = some ci := by simpa using hi
      have hne : callSignature a ≠ callSignature ci :=
        hbefore 0 a (Nat.succ_pos i) (by simp)
      cases hs : sigSeen seen (callSignature a) with
      | true =>
        rw [optimizeAux, hs]
        refine ih seen i ci hi1 ?_ hseen
        intro j cj hj hjv
        exact hbefore (j + 1) cj (by omega) (by simpa using hjv)
      | false =>
        rw [optimizeAux, hs]
        refine List.mem_cons_of_mem a (ih (callSignature a :: seen) i ci hi1 ?_ ?_)
        · intro j cj hj hjv
          exact hbefore (j + 1) cj (by omega) (by simpa using hjv)
        · intro hmem
          rcases List.mem_cons.mp hmem with h | h
          · exact hne h.symm
          · exact hseen h

/-! ## Claim theorems -/

/-- Claim C1 (code bug): a dotted reference `result_0.data` into a recorded
CallResult that does have the path resolves to None, because the
`startswith("result_")` branch captures every `result_<i>.<path>` reference
before the dotted-walk branch (whose own comment names `result_0.data` as its
intended input) can run, and the substring fallback then misses; the dotted
walk itself would have produced the value 42. -/
theorem dotted_result_reference_resolves_to_none :
    resolveReference ctxOne "result_0.data" = Value.vnull
    ∧ walkPath (Value.vdict ctxOne) (splitOnChar '.' "result_0.data") = Value.vint 42 :=
  ⟨rfl, rfl⟩

/-- Claim C2 (code bug): with eleven recorded results, `output_from_previous`
resolves to the payload of `result_9`, not of the most recent entry
`result_10`, because `max()` compares the string keys lexicographically. -/
theorem output_from_previous_uses_string_max :
    resolveReference ctxEleven "output_from_previous" = Value.vint 9
    ∧ assocLookup ctxEleven "result_10" = some (mkDataResult 10)
    ∧ getDataOrSelf (mkDataResult 10) = Value.vint 10 :=
  ⟨rfl, rfl, rfl⟩

/-- Claim C3 (confirmed): if the recorded CallResult of the critical call at
index k is unsuccessful then exactly k+1 results are recorded and nothing
beyond index k runs; and when no call both fails and is critical, every call
of the plan is recorded. -/
theorem critical_failure_short_circuits (outcome : Nat → Call → CallResult)
    (calls : List Call) (k : Nat) (ck : Call)
    (hk : calls[k]? = some ck)
    (hbefore : ∀ (j : Nat) (cj : Call), j < k → calls[j]? = some cj →
        isCriticalCall cj = false ∨ getSuccess (outcome j cj) = true) :
    (isCriticalCall ck = true → getSuccess (outcome k ck) = false →
        (executePlan outcome calls).results.length = k + 1)
    ∧ ((∀ (j : Nat) (cj : Call), calls[j]? = some cj →
          isCriticalCall cj = false ∨ getSuccess (outcome j cj) = true) →
        (executePlan outcome calls).results.length = calls.length) := by
  cases calls with
  | nil => simp at hk
  | cons c rest =>
    constructor
    · intro hcrit hfail
      rw [executePlan_results_cons]
      exact runCalls_length_break outcome (c :: rest) 0 k ck hk hcrit
        (by simpa using hfail) (by simpa using hbefore)
    · intro hnone
      rw [executePlan_results_cons]
      exact runCalls_length_no_break outcome (c :: rest) 0 (by simpa using hnone)

/-- Witness for C3 at a concrete plan: a failing critical `read_csv` at index
0 short-circuits a two-call plan after one recorded result. -/
theorem critical_failure_short_circuits_witness :
    (executePlan (fun _ _ => failResult) [critCall, plainCall]).results.length = 0 + 1 :=
  (critical_failure_short_circuits (fun _ _ => failResult) [critCall, plainCall]
    0 critCall rfl (fun j cj hj _ => absurd hj (Nat.not_lt_zero j))).1 rfl rfl

/-- Claim C4 counterexample: the empty-plan run has an (empty) results list
whose members all vacuously succeed, yet its overall success flag is false,
so "success iff every recorded CallResult succeeded" fails for this
ExecutionResult. -/
theorem empty_plan_vacuous_success_counterexample :
    (executePlan noOutcome []).results.all (fun r => getSuccess r) = true
    ∧ (executePlan noOutcome []).success = false :=
  ⟨rfl, rfl⟩

/-- Claim C4 (amended): for every run over a plan with at least one call, the
overall success flag equals "every recorded CallResult succeeded"; the
empty-plan early return instead reports failure outright. -/
theorem success_iff_all_results_succeed (outcome : Nat → Call → CallResult)
    (calls : List Call) (h : calls ≠ []) :
    (executePlan outcome calls).success
      = (executePlan outcome calls).results.all (fun r => getSuccess r) := by
  cases calls with
  | nil => exact absurd rfl h
  | cons c rest => rfl

/-- Witness for the amended C4 at a concrete one-call plan. -/
theorem success_iff_all_results_succeed_witness :
    (executePlan noOutcome [plainCall]).success
      = (executePlan noOutcome [plainCall]).results.all (fun r => getSuccess r) :=
  success_iff_all_results_succeed noOutcome [plainCall] (List.cons_ne_nil _ _)

/-- Claim C5 (confirmed): every ExecutionResult — any direct
`_create_execution_result` call (which covers the empty-plan return, the
engine-level failure return and the normal return), any `execute_plan` run and
any `simulate_execution` run — satisfies
successful + failed = total = len(results). -/
theorem summary_counts_consistent (results : List CallResult) (message : String)
    (ok : Bool) (outcome : Nat → Call → CallResult) (calls : List Call) :
    summaryInvariant (createExecutionResult results message ok)
    ∧ summaryInvariant (executePlan outcome calls)
    ∧ summaryInvariant (simulateExecution calls) := by
  refine ⟨createExecutionResult_invariant results message ok, ?_, ?_⟩
  · cases calls with
    | nil => exact createExecutionResult_invariant [] "No function calls to execute" false
    | cons c rest => exact createExecutionResult_invariant _ "Execution completed" _
  · exact createExecutionResult_invariant _ "Simulation completed" true

/-- Claim C6 counterexample: registering a second function under an
already-present name silently replaces the stored entry — the registry then
returns the new function object, which differs from the first. -/
theorem register_overwrites_counterexample :
    getFunction (registerFn (registerFn emptyRegistry fnDupA) fnDupB) "dup_op" = some fnDupB
    ∧ fnDupB ≠ fnDupA :=
  ⟨rfl, by decide⟩

/-- Claim C6 (amended): `register` never rejects a duplicate name; the last
registration wins, the previous entry being silently overwritten. -/
theorem register_last_wins (reg : FunctionRegistry) (f g : RegisteredFunction)
    (h : f.name = g.name) :
    getFunction (registerFn (registerFn reg f) g) f.name = some g := by
  rw [h]
  exact assocLookup_dictInsert _ g.name g

/-- Witness for the amended C6 at two concrete same-named functions. -/
theorem register_last_wins_witness :
    getFunction (registerFn (registerFn emptyRegistry fnDupA) fnDupB) fnDupA.name = some fnDupB :=
  register_last_wins emptyRegistry fnDupA fnDupB rfl

/-- Claim C7 counterexample: a `read_csv` call with no parameters fails
validation, `_fix_common_issues` repairs it so that a re-validation would now
succeed, yet `process_query` reports `valid = false` — the repaired plan is
never re-validated and validity does not reflect any re-validation. -/
theorem repaired_plan_not_revalidated_counterexample :
    (validateFunctionCalls (fixCommonIssues [csvCallNoParams]) csvAvail).1 = true
    ∧ (processPlanCalls csvAvail [csvCallNoParams]).valid = false :=
  ⟨rfl, rfl⟩

/-- Claim C7 (amended): the plan's `valid` flag always equals the pre-repair
validation verdict, and whenever that verdict is negative the repaired
(and deduplicated) call list is what the plan carries forward to execution
regardless of whether repair actually cured the errors. -/
theorem valid_flag_reflects_prerepair_validation (avail : List FuncDef)
    (calls : List Call) :
    (processPlanCalls avail calls).valid = (validateFunctionCalls calls avail).1
    ∧ ((validateFunctionCalls calls avail).1 = false →
        (processPlanCalls avail calls).function_calls
          = optimizeFunctionSequence (fixCommonIssues calls)) := by
  constructor
  · rfl
  · intro h
    simp [processPlanCalls, h]

/-- Witness for the amended C7 at the concrete repairable plan. -/
theorem valid_flag_reflects_prerepair_validation_witness :
    (processPlanCalls csvAvail [csvCallNoParams]).function_calls
      = optimizeFunctionSequence (fixCommonIssues [csvCallNoParams]) :=
  (valid_flag_reflects_prerepair_validation csvAvail [csvCallNoParams]).2 rfl

/-- Claim C8 (confirmed): the validator's verdict is true exactly when the
accumulated error list is empty, and the error list holds at least one entry
per malformed call (missing name, unknown operation, missing parameters
field, or missing required parameter) — errors from every call accumulate
with no short-circuit. -/
theorem validator_accumulates_errors (avail : List FuncDef) (calls : List Call) :
    ((validateFunctionCalls calls avail).1 = true
        ↔ (validateFunctionCalls calls avail).2 = [])
    ∧ (calls.filter (fun c => malformedCall avail c)).length
        ≤ (validateFunctionCalls calls avail).2.length := by
  constructor
  · simp [validateFunctionCalls, List.isEmpty_iff]
  · simp only [validateFunctionCalls]
    exact le_of_eq (validateAux_length avail calls 0).symm

/-- Claim C9 counterexample: simulating a plan with an empty call sequence
produces an ExecutionResult with success true and message
"Simulation completed", contradicting the claim for this result. -/
theorem simulated_empty_plan_success_counterexample :
    (simulateExecution []).success = true
    ∧ (simulateExecution []).message = "Simulation completed" :=
  ⟨rfl, rfl⟩

/-- Claim C9 (amended): a real `execute_plan` run over an empty call sequence
reports success false with the no-calls message, while `simulate_execution`
on the same empty plan instead reports success true. -/
theorem empty_plan_marked_unsuccessful (outcome : Nat → Call → CallResult) :
    (executePlan outcome []).success = false
    ∧ (executePlan outcome []).message = "No function calls to execute"
    ∧ (simulateExecution []).success = true :=
  ⟨rfl, rfl, rfl⟩

/-- Claim C10 (confirmed): the optimizer keeps the surviving calls in their
original relative order (sublist), leaves no two calls with the same
(name, canonical-parameters) signature, keeps a representative of every
submitted call's signature, keeps precisely the first occurrence of each
signature, and can strictly shrink a plan with duplicates. -/
theorem duplicate_calls_removed_before_execution (calls : List Call) :
    (optimizeFunctionSequence calls).Sublist calls
    ∧ (optimizeFunctionSequence calls).Pairwise
        (fun a b => callSignature a ≠ callSignature b)
    ∧ (∀ c, c ∈ calls → ∃ d, d ∈ optimizeFunctionSequence calls
          ∧ callSignature d = callSignature c)
    ∧ (∀ (i : Nat) (ci : Call), calls[i]? = some ci →
        (∀ (j : Nat) (cj : Call), j < i → calls[j]? = some cj →
            callSignature cj ≠ callSignature ci) →
        ci ∈ optimizeFunctionSequence calls)
    ∧ (optimizeFunctionSequence [plainCall, plainCall]).length
        < [plainCall, plainCall].length := by
  refine ⟨optimizeAux_sublist calls [], optimizeAux_pairwise calls [], ?_, ?_, ?_⟩
  · intro c hc
    rcases optimizeAux_represented calls [] c hc with h | h
    · simp at h
    · exact h
  · intro i ci hi hbefore
    exact optimizeAux_keeps_first calls [] i ci hi hbefore (by simp)
  · show 1 < 2
    omega

/-- Witness for C10 at a concrete duplicated plan: the first occurrence
survives the dedup pass. -/
theorem duplicate_calls_removed_before_execution_witness :
    plainCall ∈ optimizeFunctionSequence [plainCall, plainCall] :=
  (duplicate_calls_removed_before_execution [plainCall, plainCall]).2.2.2.1
    0 plainCall rfl (fun j cj hj _ => absurd hj (Nat.not_lt_zero j))
